import Mathlib

/-!
Verification of the HealthLock core: client-side encryption
(src/lib/encryption.ts), key custody and share-grant evaluation
(src/lib/storage.ts), the share dialog flow (ShareRecordDialog), and the
audit trail (src/lib/audit.ts).

The WebCrypto primitives (AES-GCM, RSA-OAEP, PBKDF2) are modelled as ideal
ciphers faithful to their contracts: an AES-GCM ciphertext authenticates the
key and IV it was produced under and decrypts back to the plaintext exactly
when both match; an RSA-OAEP ciphertext decrypts exactly under the matching
private key.  Byte strings are lists of naturals; base64 transport encoding
is abstracted away (it is a bijection); ISO-8601 timestamps are modelled by
their millisecond values as naturals, so the source comparisons
(string comparison of ISO dates, getTime arithmetic) become Nat comparisons.
Randomness (fresh IVs, generated ids, clock reads) is passed explicitly as
parameters.
-/

namespace HealthLock

/-- Byte strings (file buffers, key material, IVs) as lists of naturals. -/
abbrev Bytes := List Nat

/-- A 256-bit AES-GCM key, identified by its raw exported key material
(subtle.exportKey "raw"). -/
structure AESKey where
  raw : Bytes
deriving DecidableEq

/-- Ideal model of an AES-GCM ciphertext: the authentication tag binds the
key and the IV used at encryption time, so the model ciphertext carries both
for the decryption-time check.  The IV is not recoverable from the on-wire
bytes in the real scheme; no modelled code path reads the `iv` component. -/
structure GCMCiphertext where
  keyRaw : Bytes
  iv : Bytes
  data : Bytes
deriving DecidableEq

/-- Ideal AES-GCM encryption (window.crypto.subtle.encrypt with AES-GCM). -/
def gcmEncrypt (key : AESKey) (iv : Bytes) (plain : Bytes) : GCMCiphertext :=
  { keyRaw := key.raw, iv := iv, data := plain }

/-- Ideal AES-GCM decryption (window.crypto.subtle.decrypt with AES-GCM):
succeeds exactly when the key and IV match the ones used at encryption,
otherwise the authentication tag fails and the promise rejects (`none`). -/
def gcmDecrypt (key : AESKey) (iv : Bytes) (ct : GCMCiphertext) : Option Bytes :=
  if ct.keyRaw = key.raw ∧ ct.iv = iv then some ct.data else none

/-- An RSA-OAEP public key, identified by the keypair it belongs to. -/
structure RSAPublicKey where
  keyId : Nat
deriving DecidableEq

/-- An RSA-OAEP private key, identified by the keypair it belongs to. -/
structure RSAPrivateKey where
  keyId : Nat
deriving DecidableEq

/-- A keypair as returned by EncryptionService.generateKeyPair. -/
structure RSAKeyPair where
  publicKey : RSAPublicKey
  privateKey : RSAPrivateKey
deriving DecidableEq

/-- Ideal model of an RSA-OAEP ciphertext. -/
structure RSACiphertext where
  keyId : Nat
  data : Bytes
deriving DecidableEq

/-- Ideal RSA-OAEP encryption under a public key. -/
def rsaEncrypt (publicKey : RSAPublicKey) (data : Bytes) : RSACiphertext :=
  { keyId := publicKey.keyId, data := data }

/-- Ideal RSA-OAEP decryption: succeeds exactly under the matching private
key; with any other key the OAEP padding check fails (`none`). -/
def rsaDecrypt (privateKey : RSAPrivateKey) (ct : RSACiphertext) : Option Bytes :=
  if ct.keyId = privateKey.keyId then some ct.data else none

namespace EncryptionService

/-- Result shape of EncryptionService.encryptFile (src/lib/encryption.ts:29). -/
structure EncryptFileResult where
  encryptedData : GCMCiphertext
  iv : Bytes
deriving DecidableEq

/-- EncryptionService.encryptFile (src/lib/encryption.ts:29): encrypts the
file buffer with AES-GCM under a freshly generated 12-byte IV, returning the
ciphertext together with the IV.  The random IV is passed explicitly. -/
def encryptFile (fileBuffer : Bytes) (key : AESKey) (ivRand : Bytes) :
    EncryptFileResult :=
  { encryptedData := gcmEncrypt key ivRand fileBuffer, iv := ivRand }

/-- EncryptionService.decryptFile (src/lib/encryption.ts:52). -/
def decryptFile (encryptedData : GCMCiphertext) (key : AESKey) (iv : Bytes) :
    Option Bytes :=
  gcmDecrypt key iv encryptedData

/-- subtle.importKey "raw" with AES-GCM parameters: the imported key has
exactly the given raw material. -/
def importAESKeyRaw (keyBuffer : Bytes) : AESKey :=
  { raw := keyBuffer }

/-- EncryptionService.encryptKey (src/lib/encryption.ts:64): exports the AES
key raw and RSA-OAEP-encrypts it under the recipient public key. -/
def encryptKey (aesKey : AESKey) (publicKey : RSAPublicKey) : RSACiphertext :=
  rsaEncrypt publicKey aesKey.raw

/-- EncryptionService.decryptKey (src/lib/encryption.ts:76): RSA-OAEP
decrypts the wrapped key and re-imports the raw bytes as an AES-GCM key. -/
def decryptKey (encryptedKey : RSACiphertext) (privateKey : RSAPrivateKey) :
    Option AESKey :=
  (rsaDecrypt privateKey encryptedKey).map importAESKeyRaw

end EncryptionService

/-- C1: For every 256-bit AES-GCM key k and every payload p, including the
empty payload, decrypting with the same key k the (ciphertext, IV) pair
produced by encryptFile(p, k) returns exactly p. -/
theorem encryptFile_decryptFile_roundtrip (key : AESKey) (p ivRand : Bytes)
    (_hiv : ivRand.length = 12) :
    EncryptionService.decryptFile
        (EncryptionService.encryptFile p key ivRand).encryptedData key
        (EncryptionService.encryptFile p key ivRand).iv = some p := by
  simp [EncryptionService.decryptFile, EncryptionService.encryptFile,
    gcmDecrypt, gcmEncrypt]

/-- Witness for C1: the round-trip evaluated on the empty payload with a
concrete 12-byte IV. -/
theorem encryptFile_decryptFile_roundtrip_witness :
    ([0, 1, 2, 3, 4, 5, 6, 7, 8, 9, 10, 11] : Bytes).length = 12 ∧
    EncryptionService.decryptFile
        (EncryptionService.encryptFile [] { raw := [9] }
          [0, 1, 2, 3, 4, 5, 6, 7, 8, 9, 10, 11]).encryptedData
        { raw := [9] }
        (EncryptionService.encryptFile [] { raw := [9] }
          [0, 1, 2, 3, 4, 5, 6, 7, 8, 9, 10, 11]).iv = some [] :=
  ⟨by decide,
    encryptFile_decryptFile_roundtrip { raw := [9] } []
      [0, 1, 2, 3, 4, 5, 6, 7, 8, 9, 10, 11] (by decide)⟩

/-- C3: unwrapping the wrapped content key with the matching private key
yields the same AES key, and unwrapping with the private key of any other
keypair fails. -/
theorem envelope_wrap_unwrap (n m : Nat) (k : AESKey) :
    EncryptionService.decryptKey
        (EncryptionService.encryptKey k { keyId := n }) { keyId := n } =
      some k ∧
    (n ≠ m →
      EncryptionService.decryptKey
          (EncryptionService.encryptKey k { keyId := n }) { keyId := m } =
        none) := by
  constructor
  · simp [EncryptionService.decryptKey, EncryptionService.encryptKey,
      rsaEncrypt, rsaDecrypt, EncryptionService.importAESKeyRaw]
  · intro hnm
    simp [EncryptionService.decryptKey, EncryptionService.encryptKey,
      rsaEncrypt, rsaDecrypt, hnm]

/-- Witness for C3: round-trip and mismatch failure at keypair ids 0 and 1
with a concrete content key. -/
theorem envelope_wrap_unwrap_witness :
    (0 : Nat) ≠ 1 ∧
    EncryptionService.decryptKey
        (EncryptionService.encryptKey { raw := [7, 7] } { keyId := 0 })
        { keyId := 0 } = some { raw := [7, 7] } ∧
    EncryptionService.decryptKey
        (EncryptionService.encryptKey { raw := [7, 7] } { keyId := 0 })
        { keyId := 1 } = none :=
  ⟨by decide,
    (envelope_wrap_unwrap 0 1 { raw := [7, 7] }).1,
    (envelope_wrap_unwrap 0 1 { raw := [7, 7] }).2 (by decide)⟩

/-- User role, as in src/lib/storage.ts (User.role). -/
inductive Role
  | patient
  | doctor
deriving DecidableEq

/-- Access level of a share, as in src/lib/storage.ts (ShareRequest.accessLevel). -/
inductive AccessLevel
  | view
  | download
deriving DecidableEq

/-- Status of a share request, as in src/lib/storage.ts (ShareRequest.status). -/
inductive ShareStatus
  | pending
  | approved
  | denied
deriving DecidableEq

namespace StorageService

/-- PBKDF2-SHA-256 at 100000 iterations (src/lib/storage.ts:41): a
deterministic function of password and salt, modelled as an injective
encoding of the two inputs. -/
def pbkdf2Sha256 (password salt : String) : Bytes :=
  (password.data.map Char.toNat) ++ 1000 :: (salt.data.map Char.toNat)

/-- StorageService.deriveEncryptionKey (src/lib/storage.ts:41): derives the
AES-GCM wrapping key from the password with the given salt. -/
def deriveEncryptionKey (password salt : String) : AESKey :=
  { raw := pbkdf2Sha256 password salt }

/-- Result shape of StorageService.encryptData (src/lib/storage.ts:65): the
base64 ciphertext and the base64 IV, base64 abstracted. -/
structure EncryptDataResult where
  encrypted : GCMCiphertext
  iv : Bytes
deriving DecidableEq

/-- StorageService.encryptData (src/lib/storage.ts:65): AES-GCM encrypts the
data under a freshly generated 12-byte IV and returns ciphertext and IV. -/
def encryptData (data : Bytes) (key : AESKey) (ivRand : Bytes) :
    EncryptDataResult :=
  { encrypted := gcmEncrypt key ivRand data, iv := ivRand }

/-- StorageService.decryptData (src/lib/storage.ts:77): AES-GCM decrypts the
stored ciphertext with the supplied IV; fails when key or IV mismatch. -/
def decryptData (encryptedData : GCMCiphertext) (iv : Bytes) (key : AESKey) :
    Option Bytes :=
  gcmDecrypt key iv encryptedData

/-- subtle.exportKey "pkcs8" of the RSA private key: an injective byte
encoding of the key. -/
def exportPkcs8 (privateKey : RSAPrivateKey) : Bytes :=
  [privateKey.keyId]

/-- The users-table row written by StorageService.createUser
(src/lib/storage.ts:153): id, email, name, role, public_key and
encrypted_private_key.  No IV column exists for the wrapped private key. -/
structure StoredUserRow where
  id : String
  email : String
  name : String
  role : Role
  publicKey : RSAPublicKey
  encryptedPrivateKey : GCMCiphertext
deriving DecidableEq

/-- StorageService.createUser, key-wrapping and persistence steps
(src/lib/storage.ts:140-162): exports the private key (pkcs8, then base64,
abstracted), derives the wrapping key from the password with the email as
salt, encrypts it with encryptData, and stores only the `encrypted`
component of the result as encrypted_private_key — the `iv` component is
destructured away and never persisted. -/
def createUserRow (id email name : String) (role : Role) (password : String)
    (keyPair : RSAKeyPair) (ivRand : Bytes) : StoredUserRow :=
  let encryptionKey := deriveEncryptionKey password email
  let wrapped := encryptData (exportPkcs8 keyPair.privateKey) encryptionKey ivRand
  { id := id, email := email, name := name, role := role,
    publicKey := keyPair.publicKey, encryptedPrivateKey := wrapped.encrypted }

end StorageService

/-- C2: createUser persists only the ciphertext component of the wrap — the
IV is discarded — and unwrapping the stored material with any IV other than
the discarded one fails authentication, so the stored
encrypted_private_key material alone cannot recover the private key. -/
theorem createUser_discards_wrap_iv (id email name : String) (role : Role)
    (password : String) (keyPair : RSAKeyPair) (ivRand iv2 : Bytes)
    (h : iv2 ≠ ivRand) :
    (StorageService.createUserRow id email name role password keyPair
        ivRand).encryptedPrivateKey =
      (StorageService.encryptData (StorageService.exportPkcs8 keyPair.privateKey)
        (StorageService.deriveEncryptionKey password email) ivRand).encrypted ∧
    StorageService.decryptData
        (StorageService.createUserRow id email name role password keyPair
          ivRand).encryptedPrivateKey iv2
        (StorageService.deriveEncryptionKey password email) = none := by
  constructor
  · rfl
  · simp [StorageService.createUserRow, StorageService.decryptData,
      StorageService.encryptData, gcmDecrypt, gcmEncrypt, h]
    exact fun hiv => h hiv.symm

/-- Witness for C2: a concrete user creation whose stored private-key
material cannot be decrypted with a different IV. -/
theorem createUser_discards_wrap_iv_witness :
    ([1] : Bytes) ≠ [0] ∧
    (StorageService.createUserRow "u1" "a@x.com" "Alice" Role.patient "pw"
        { publicKey := { keyId := 3 }, privateKey := { keyId := 3 } }
        [0]).encryptedPrivateKey =
      (StorageService.encryptData (StorageService.exportPkcs8 { keyId := 3 })
        (StorageService.deriveEncryptionKey "pw" "a@x.com") [0]).encrypted ∧
    StorageService.decryptData
        (StorageService.createUserRow "u1" "a@x.com" "Alice" Role.patient "pw"
          { publicKey := { keyId := 3 }, privateKey := { keyId := 3 } }
          [0]).encryptedPrivateKey [1]
        (StorageService.deriveEncryptionKey "pw" "a@x.com") = none :=
  ⟨by decide,
    (createUser_discards_wrap_iv "u1" "a@x.com" "Alice" Role.patient "pw"
      { publicKey := { keyId := 3 }, privateKey := { keyId := 3 } }
      [0] [1] (by decide)).1,
    (createUser_discards_wrap_iv "u1" "a@x.com" "Alice" Role.patient "pw"
      { publicKey := { keyId := 3 }, privateKey := { keyId := 3 } }
      [0] [1] (by decide)).2⟩

/-- A share request, as in src/lib/storage.ts (ShareRequest interface);
the ISO-8601 expiresAt and createdAt timestamps are modelled by their
millisecond values. -/
structure ShareRequest where
  id : String
  recordId : String
  patientId : String
  doctorId : String
  doctorEmail : String
  doctorName : String
  expiresAt : Nat
  accessLevel : AccessLevel
  status : ShareStatus
  createdAt : Nat
deriving DecidableEq

/-- A patient_records table row (src/scripts/01-create-tables.sql:17); the
base64 payload columns are kept as opaque strings. -/
structure PatientRecordRow where
  id : String
  patientId : String
  fileName : String
  fileType : String
  encryptedData : String
  iv : String
  encryptedKey : String
  createdAt : Nat
deriving DecidableEq

/-- The relational store consumed by StorageService: users, patient_records
and share_requests tables. -/
structure Database where
  users : List StorageService.StoredUserRow
  records : List PatientRecordRow
  shares : List ShareRequest
deriving DecidableEq

/-- Result row shape of StorageService.getSharedRecords
(src/lib/storage.ts:330): the full patient record joined with the patient
name. -/
structure SharedRecordView where
  id : String
  patientId : String
  fileName : String
  fileType : String
  encryptedData : String
  iv : String
  encryptedKey : String
  uploadedAt : Nat
  patientName : String
deriving DecidableEq

namespace StorageService

/-- The share filter of StorageService.getSharedRecords
(src/lib/storage.ts:339-341): eq("doctor_id", doctorId),
eq("status", "approved"), gt("expires_at", now).  This is the code's access
evaluation for a doctor's request: a share grants access exactly when it
belongs to the doctor, is approved, and its expiry is strictly after now. -/
def shareGrantsAccess (s : ShareRequest) (doctorId : String) (nowMs : Nat) :
    Bool :=
  s.doctorId == doctorId && s.status == ShareStatus.approved &&
    decide (nowMs < s.expiresAt)

/-- StorageService.getSharedRecords (src/lib/storage.ts:330): selects the
share_requests rows passing the filter, joined with the referenced
patient_records row and the patient's users row, and maps each to the full
record view handed to the doctor. -/
def getSharedRecords (db : Database) (doctorId : String) (nowMs : Nat) :
    List SharedRecordView :=
  (db.shares.filter (fun s => shareGrantsAccess s doctorId nowMs)).filterMap
    (fun s =>
      match db.records.find? (fun r => r.id == s.recordId),
            db.users.find? (fun u => u.id == s.patientId) with
      | some r, some u =>
          some { id := r.id, patientId := r.patientId, fileName := r.fileName,
                 fileType := r.fileType, encryptedData := r.encryptedData,
                 iv := r.iv, encryptedKey := r.encryptedKey,
                 uploadedAt := r.createdAt, patientName := u.name }
      | _, _ => none)

end StorageService

/-- C4: for an approved grant belonging to the doctor, the code's access
evaluation denies at now = expiresAt and allows at every now strictly before
expiresAt — the expiry bound is exclusive. -/
theorem expiry_boundary_exclusive (s : ShareRequest) (d : String)
    (hd : s.doctorId = d) (hst : s.status = ShareStatus.approved) :
    StorageService.shareGrantsAccess s d s.expiresAt = false ∧
    ∀ nowMs, nowMs < s.expiresAt →
      StorageService.shareGrantsAccess s d nowMs = true := by
  constructor
  · simp [StorageService.shareGrantsAccess, hd, hst]
  · intro nowMs hlt
    simp [StorageService.shareGrantsAccess, hd, hst, hlt]

/-- Witness for C4: a concrete approved grant expiring at 100 is denied at
now = 100 and allowed at now = 99. -/
theorem expiry_boundary_exclusive_witness :
    ({ id := "s1", recordId := "r1", patientId := "p1", doctorId := "d1",
       doctorEmail := "doc@demo.com", doctorName := "Doc",
       expiresAt := 100, accessLevel := AccessLevel.view,
       status := ShareStatus.approved, createdAt := 0 } :
        ShareRequest).doctorId = "d1" ∧
    StorageService.shareGrantsAccess
      { id := "s1", recordId := "r1", patientId := "p1", doctorId := "d1",
        doctorEmail := "doc@demo.com", doctorName := "Doc",
        expiresAt := 100, accessLevel := AccessLevel.view,
        status := ShareStatus.approved, createdAt := 0 } "d1" 100 = false ∧
    StorageService.shareGrantsAccess
      { id := "s1", recordId := "r1", patientId := "p1", doctorId := "d1",
        doctorEmail := "doc@demo.com", doctorName := "Doc",
        expiresAt := 100, accessLevel := AccessLevel.view,
        status := ShareStatus.approved, createdAt := 0 } "d1" 99 = true :=
  ⟨rfl,
    (expiry_boundary_exclusive
      { id := "s1", recordId := "r1", patientId := "p1", doctorId := "d1",
        doctorEmail := "doc@demo.com", doctorName := "Doc",
        expiresAt := 100, accessLevel := AccessLevel.view,
        status := ShareStatus.approved, createdAt := 0 } "d1" rfl rfl).1,
    (expiry_boundary_exclusive
      { id := "s1", recordId := "r1", patientId := "p1", doctorId := "d1",
        doctorEmail := "doc@demo.com", doctorName := "Doc",
        expiresAt := 100, accessLevel := AccessLevel.view,
        status := ShareStatus.approved, createdAt := 0 } "d1" rfl rfl).2
      99 (by decide)⟩

/-- A concrete approved share used to exhibit the absence of access-level
gating; its access level is the parameter. -/
def demoShareAtLevel (lvl : AccessLevel) : ShareRequest :=
  { id := "s1", recordId := "r1", patientId := "p1", doctorId := "d1",
    doctorEmail := "doc@demo.com", doctorName := "Doc",
    expiresAt := 100, accessLevel := lvl,
    status := ShareStatus.approved, createdAt := 0 }

/-- A concrete database holding one patient, one record and one approved
share at the given access level. -/
def demoDbAtLevel (lvl : AccessLevel) : Database :=
  { users := [{ id := "p1", email := "p@x.com", name := "Pat",
                role := Role.patient, publicKey := { keyId := 1 },
                encryptedPrivateKey := { keyRaw := [], iv := [], data := [] } }],
    records := [{ id := "r1", patientId := "p1", fileName := "xray.png",
                  fileType := "image/png", encryptedData := "ct-b64",
                  iv := "iv-b64", encryptedKey := "wrapped-key-b64",
                  createdAt := 10 }],
    shares := [demoShareAtLevel lvl] }

/-- C5: the code performs no access-level gating — a view-level approved,
unexpired grant yields the full record, including the wrapped content key
that enables download, exactly as a download-level grant does; no request is
denied for insufficient access level. -/
theorem view_grant_full_access :
    StorageService.getSharedRecords (demoDbAtLevel AccessLevel.view) "d1" 50 =
      [{ id := "r1", patientId := "p1", fileName := "xray.png",
         fileType := "image/png", encryptedData := "ct-b64", iv := "iv-b64",
         encryptedKey := "wrapped-key-b64", uploadedAt := 10,
         patientName := "Pat" }] ∧
    StorageService.getSharedRecords (demoDbAtLevel AccessLevel.view) "d1" 50 =
      StorageService.getSharedRecords (demoDbAtLevel AccessLevel.download)
        "d1" 50 := by
  constructor <;> decide

/-- An application-level user, as in src/lib/storage.ts (User interface). -/
structure AppUser where
  id : String
  email : String
  name : String
  role : Role
  publicKey : Option String
  privateKey : Option String
deriving DecidableEq

namespace StorageService

/-- StorageService.getDemoUsers (src/lib/storage.ts:369): always returns the
empty list. -/
def getDemoUsers : List AppUser :=
  []

end StorageService

/-- Outcome of the ShareRecordDialog.handleShare flow: the alert shown when
a field is missing, the alert shown when the doctor lookup fails, or a
successful share carrying the created request. -/
inductive ShareOutcome
  | missingFields
  | doctorNotFound
  | shared (request : ShareRequest)
deriving DecidableEq

/-- ShareRecordDialog.handleShare (ShareRecordDialog, lines 39-102): rejects
when the doctor email or the expiry date is missing, looks the doctor up in
the demo user list, and otherwise builds an auto-approved share request with
the chosen expiry and access level and persists it.  The generated id uses
the current clock value; no validation of the expiry against the current
time is performed anywhere in the handler. -/
def handleShare (doctorEmail : String) (expiryDate : Option Nat)
    (record : PatientRecordRow) (user : AppUser) (accessLevel : AccessLevel)
    (nowMs : Nat) (shares : List ShareRequest) :
    ShareOutcome × List ShareRequest :=
  match expiryDate with
  | none => (ShareOutcome.missingFields, shares)
  | some expiry =>
    if doctorEmail = "" then (ShareOutcome.missingFields, shares)
    else
      match StorageService.getDemoUsers.find?
          (fun u => u.email == doctorEmail && u.role == Role.doctor) with
      | none => (ShareOutcome.doctorNotFound, shares)
      | some doctor =>
          let request : ShareRequest :=
            { id := "share-" ++ toString nowMs, recordId := record.id,
              patientId := user.id, doctorId := doctor.id,
              doctorEmail := doctor.email, doctorName := doctor.name,
              expiresAt := expiry, accessLevel := accessLevel,
              status := ShareStatus.approved, createdAt := nowMs }
          (ShareOutcome.shared request, shares ++ [request])

/-- Concrete record used for the share-flow counterexample. -/
def shareDemoRecord : PatientRecordRow :=
  { id := "r9", patientId := "p9", fileName := "scan.pdf",
    fileType := "application/pdf", encryptedData := "ct", iv := "iv",
    encryptedKey := "wk", createdAt := 1 }

/-- Concrete patient used for the share-flow counterexample. -/
def shareDemoUser : AppUser :=
  { id := "p9", email := "pat@x.com", name := "Pat", role := Role.patient,
    publicKey := none, privateKey := none }

/-- C6 counterexample: a share call whose expiry (99) is strictly in the
past relative to now (100) does not fail with an invalid-expiry error — no
such error exists in the code; it fails with the doctor-not-found alert
(the store is indeed left unchanged). -/
theorem handleShare_past_expiry_outcome :
    handleShare "doctor@demo.com" (some 99) shareDemoRecord shareDemoUser
        AccessLevel.view 100 [] =
      (ShareOutcome.doctorNotFound, []) := by
  decide

/-- C6 amended: handleShare performs no expiry validation — its result is
identical for any two expiry dates — and, since the demo doctor list is
empty, every call leaves the share store unchanged. -/
theorem handleShare_no_expiry_validation (doctorEmail : String) (t1 t2 : Nat)
    (record : PatientRecordRow) (user : AppUser) (lvl : AccessLevel)
    (nowMs : Nat) (shares : List ShareRequest) :
    handleShare doctorEmail (some t1) record user lvl nowMs shares =
      handleShare doctorEmail (some t2) record user lvl nowMs shares ∧
    (handleShare doctorEmail (some t1) record user lvl nowMs shares).2 =
      shares := by
  constructor <;> by_cases h : doctorEmail = "" <;>
    simp [handleShare, h, StorageService.getDemoUsers]

/-- The event payload passed to AuditService.logEvent (src/lib/audit.ts:40):
an AuditLog with id, timestamp, ipAddress and userAgent omitted. -/
structure AuditEvent where
  userId : String
  userName : String
  userRole : Role
  action : String
  resourceType : String
  resourceId : Option String
  resourceName : Option String
  details : String
deriving DecidableEq

/-- An audit entry, as in src/lib/audit.ts (AuditLog interface); the
ISO-8601 timestamp is modelled by its millisecond value, which is what the
source compares after new Date(...).getTime(). -/
structure AuditLog where
  id : String
  userId : String
  userName : String
  userRole : Role
  action : String
  resourceType : String
  resourceId : Option String
  resourceName : Option String
  details : String
  ipAddress : Option String
  userAgent : Option String
  timestamp : Nat
deriving DecidableEq

namespace AuditService

/-- The entry built by AuditService.logEventLocally (src/lib/audit.ts:67):
the event enriched with the generated id, the current timestamp, the demo IP
and the user agent.  The generated id and the clock value are explicit
parameters. -/
def buildLocalAuditLog (event : AuditEvent) (idStr : String) (tsMs : Nat) :
    AuditLog :=
  { id := idStr, userId := event.userId, userName := event.userName,
    userRole := event.userRole, action := event.action,
    resourceType := event.resourceType, resourceId := event.resourceId,
    resourceName := event.resourceName, details := event.details,
    ipAddress := some "127.0.0.1", userAgent := some "Server",
    timestamp := tsMs }

/-- AuditService.logEventLocally (src/lib/audit.ts:66): appends the built
entry to the healthlock_audit_logs list and, when the list then exceeds 1000
entries, splices away the oldest so that the last 1000 remain. -/
def logEventLocally (event : AuditEvent) (idStr : String) (tsMs : Nat)
    (logs : List AuditLog) : List AuditLog :=
  let auditLog := buildLocalAuditLog event idStr tsMs
  let allLogs := logs ++ [auditLog]
  if allLogs.length > 1000 then allLogs.drop (allLogs.length - 1000)
  else allLogs

end AuditService

/-- Characterization used by several audit proofs: logEventLocally always
equals the appended list with its overflow over 1000 dropped from the
front. -/
theorem logEventLocally_eq_drop (event : AuditEvent) (idStr : String)
    (tsMs : Nat) (logs : List AuditLog) :
    AuditService.logEventLocally event idStr tsMs logs =
      (logs ++ [AuditService.buildLocalAuditLog event idStr tsMs]).drop
        ((logs.length + 1) - 1000) := by
  unfold AuditService.logEventLocally
  by_cases h : (logs ++ [AuditService.buildLocalAuditLog event idStr tsMs]).length > 1000
  · simp only [h, if_pos]
    simp
  · simp only [h, if_neg, Bool.false_eq_true, not_false_eq_true]
    have hlen : logs.length + 1 ≤ 1000 := by
      simpa using Nat.not_lt.mp h
    rw [Nat.sub_eq_zero_of_le hlen, List.drop_zero]

/-- A concrete audit entry distinguished by its timestamp, used to populate
a full local store. -/
def mkStoredLog (i : Nat) : AuditLog :=
  { id := "a", userId := "u1", userName := "User", userRole := Role.patient,
    action := "upload", resourceType := "record", resourceId := none,
    resourceName := none, details := "d", ipAddress := none,
    userAgent := none, timestamp := i }

/-- A local store already holding 1000 entries. -/
def fullLocalStore : List AuditLog :=
  (List.range 1000).map mkStoredLog

/-- A concrete audit event to append. -/
def demoAuditEvent : AuditEvent :=
  { userId := "u1", userName := "User", userRole := Role.patient,
    action := "upload", resourceType := "record", resourceId := none,
    resourceName := none, details := "d" }

set_option maxRecDepth 100000 in
/-- C7 counterexample: appending to a local store that already holds 1000
entries deletes the oldest stored entry — the store is not append-only. -/
theorem logEventLocally_drops_oldest_at_cap :
    mkStoredLog 0 ∈ fullLocalStore ∧
    mkStoredLog 0 ∉
      AuditService.logEventLocally demoAuditEvent "a1000" 1000
        fullLocalStore := by
  decide

/-- C7 amended: while the local store holds fewer than 1000 entries, an
append leaves every earlier entry present and unchanged, in order, with the
new entry at the end. -/
theorem logEventLocally_append_below_cap (event : AuditEvent)
    (idStr : String) (tsMs : Nat) (logs : List AuditLog)
    (h : logs.length < 1000) :
    AuditService.logEventLocally event idStr tsMs logs =
      logs ++ [AuditService.buildLocalAuditLog event idStr tsMs] := by
  rw [logEventLocally_eq_drop, Nat.sub_eq_zero_of_le (by omega),
    List.drop_zero]

/-- Witness for C7 amended: appending to a two-entry store keeps both
entries unchanged and in order. -/
theorem logEventLocally_append_below_cap_witness :
    ([mkStoredLog 0, mkStoredLog 1] : List AuditLog).length < 1000 ∧
    AuditService.logEventLocally demoAuditEvent "a2" 2
        [mkStoredLog 0, mkStoredLog 1] =
      [mkStoredLog 0, mkStoredLog 1] ++
        [AuditService.buildLocalAuditLog demoAuditEvent "a2" 2] :=
  ⟨by decide,
    logEventLocally_append_below_cap demoAuditEvent "a2" 2
      [mkStoredLog 0, mkStoredLog 1] (by decide)⟩

/-- Outcome of the supabase insert inside AuditService.logEvent
(src/lib/audit.ts:44): success, a returned error value (checked by the
`if (error)` branch), or an exception thrown during the attempt (caught by
the surrounding try/catch). -/
inductive DbInsertOutcome
  | ok
  | errorValue
  | thrown
deriving DecidableEq

namespace AuditService

/-- The body of AuditService.logEvent (src/lib/audit.ts:41-58) before the
surrounding catch: on insert success the local store is untouched; on a
returned error value the error branch appends to the local fallback store;
a thrown exception escapes the body. -/
def logEventBody (db : DbInsertOutcome) (event : AuditEvent) (idStr : String)
    (tsMs : Nat) (logs : List AuditLog) : Except Unit (List AuditLog) :=
  match db with
  | DbInsertOutcome.ok => Except.ok logs
  | DbInsertOutcome.errorValue =>
      Except.ok (logEventLocally event idStr tsMs logs)
  | DbInsertOutcome.thrown => Except.error ()

/-- AuditService.logEvent (src/lib/audit.ts:40): the body wrapped in the
catch of src/lib/audit.ts:59-63, which degrades every thrown exception to
the local fallback append — logEvent itself is total and never raises. -/
def logEvent (db : DbInsertOutcome) (event : AuditEvent) (idStr : String)
    (tsMs : Nat) (logs : List AuditLog) : List AuditLog :=
  match logEventBody db event idStr tsMs logs with
  | Except.ok l => l
  | Except.error _ => logEventLocally event idStr tsMs logs

end AuditService

/-- C8: logEvent is a total function of the insert outcome — persistence
failures, whether reported as error values or thrown, are degraded to the
local fallback append and never propagated — and on every failure the event
lands in the fallback store. -/
theorem logEvent_never_propagates_failure (db : DbInsertOutcome)
    (event : AuditEvent) (idStr : String) (tsMs : Nat)
    (logs : List AuditLog) :
    AuditService.logEvent db event idStr tsMs logs =
      (if db = DbInsertOutcome.ok then logs
       else AuditService.logEventLocally event idStr tsMs logs) ∧
    AuditService.buildLocalAuditLog event idStr tsMs ∈
      AuditService.logEventLocally event idStr tsMs logs := by
  constructor
  · cases db <;> simp [AuditService.logEvent, AuditService.logEventBody]
  · rw [logEventLocally_eq_drop,
      List.drop_append_of_le_length (by omega)]
    exact List.mem_append_right _ (List.mem_singleton.mpr rfl)

/-- One append step of the local fallback store, as a fold over the
(event, generated id, clock value) inputs of successive
logEventLocally calls. -/
def appendAllLocally (items : List (AuditEvent × String × Nat)) :
    List AuditLog :=
  items.foldl
    (fun logs it => AuditService.logEventLocally it.1 it.2.1 it.2.2 logs) []

/-- The entry each input produces. -/
def localEntryOf (it : AuditEvent × String × Nat) : AuditLog :=
  AuditService.buildLocalAuditLog it.1 it.2.1 it.2.2

/-- C10: after any number of fallback appends starting from the empty store,
the local store holds at most 1000 entries and equals exactly the most
recently appended entries, in insertion order (all of them while they number
at most 1000, else the last 1000). -/
theorem localAuditStore_cap_invariant
    (items : List (AuditEvent × String × Nat)) :
    (appendAllLocally items).length ≤ 1000 ∧
    appendAllLocally items =
      (items.map localEntryOf).drop (items.length - 1000) := by
  have key : ∀ l : List (AuditEvent × String × Nat),
      appendAllLocally l = (l.map localEntryOf).drop (l.length - 1000) := by
    intro l
    induction l using List.reverseRecOn with
    | nil => simp [appendAllLocally]
    | append_singleton xs x ih =>
      have hstep : appendAllLocally (xs ++ [x]) =
          AuditService.logEventLocally x.1 x.2.1 x.2.2
            (appendAllLocally xs) := by
        simp [appendAllLocally]
      have hL : (xs ++ [x]).length = xs.length + 1 := by simp
      rw [hstep, ih, logEventLocally_eq_drop, hL, List.map_append]
      simp only [List.map_cons, List.map_nil]
      have hlen : ((xs.map localEntryOf).drop (xs.length - 1000)).length =
          xs.length - (xs.length - 1000) := by simp
      rw [hlen]
      by_cases hx : xs.length < 1000
      · have e1 : xs.length - (xs.length - 1000) + 1 - 1000 = 0 := by omega
        have e2 : xs.length + 1 - 1000 = 0 := by omega
        have e0 : xs.length - 1000 = 0 := by omega
        rw [e1, e2, e0]
        simp only [List.drop_zero]
        simp [localEntryOf]
      · have e1 : xs.length - (xs.length - 1000) + 1 - 1000 = 1 := by omega
        rw [e1]
        have hA : (((xs.map localEntryOf).drop (xs.length - 1000)) ++
              [AuditService.buildLocalAuditLog x.1 x.2.1 x.2.2]).drop 1 =
            ((xs.map localEntryOf).drop (xs.length - 1000)).drop 1 ++
              [AuditService.buildLocalAuditLog x.1 x.2.1 x.2.2] :=
          List.drop_append_of_le_length
            (by simp only [List.length_drop, List.length_map]; omega)
        have hB : ((xs.map localEntryOf) ++ [localEntryOf x]).drop
              (xs.length + 1 - 1000) =
            (xs.map localEntryOf).drop (xs.length + 1 - 1000) ++
              [localEntryOf x] :=
          List.drop_append_of_le_length
            (by simp only [List.length_map]; omega)
        rw [hA, hB, List.drop_drop]
        have e2 : xs.length - 1000 + 1 = xs.length + 1 - 1000 := by omega
        rw [e2]
        simp [localEntryOf]
  refine ⟨?_, key items⟩
  rw [key items]
  simp
  omega

/-- The filter argument of AuditService.getAuditLogsLocally
(src/lib/audit.ts:136): optional userId, resourceId, action and limit. -/
structure AuditFilters where
  userId : Option String
  resourceId : Option String
  action : Option String
  limit : Option Nat
deriving DecidableEq

namespace AuditService

/-- The userId filter stage (src/lib/audit.ts:145): applied only when the
value is truthy — present and non-empty. -/
def filterByUser (o : Option String) (logs : List AuditLog) :
    List AuditLog :=
  match o with
  | some u => if u = "" then logs else logs.filter (fun log => log.userId == u)
  | none => logs

/-- The resourceId filter stage (src/lib/audit.ts:148). -/
def filterByResource (o : Option String) (logs : List AuditLog) :
    List AuditLog :=
  match o with
  | some r =>
      if r = "" then logs
      else logs.filter (fun log => log.resourceId == some r)
  | none => logs

/-- The action filter stage (src/lib/audit.ts:151). -/
def filterByAction (o : Option String) (logs : List AuditLog) :
    List AuditLog :=
  match o with
  | some a => if a = "" then logs else logs.filter (fun log => log.action == a)
  | none => logs

/-- The three filter stages of getAuditLogsLocally applied in source
order. -/
def auditQueryPool (filters : AuditFilters) (logs : List AuditLog) :
    List AuditLog :=
  filterByAction filters.action
    (filterByResource filters.resourceId (filterByUser filters.userId logs))

/-- The limit stage of getAuditLogsLocally (src/lib/audit.ts:157): slices
to the limit only when it is truthy (present and nonzero). -/
def applyLimit (o : Option Nat) (sorted : List AuditLog) : List AuditLog :=
  match o with
  | some n => if n = 0 then sorted else sorted.take n
  | none => sorted

/-- AuditService.getAuditLogsLocally (src/lib/audit.ts:136): filters the
stored entries by the truthy filters, sorts them newest-first by timestamp
(the JS comparator (a, b) => getTime(b) - getTime(a), a stable sort), and
slices to the limit when the limit is truthy (nonzero). -/
def getAuditLogsLocally (filters : AuditFilters) (logs : List AuditLog) :
    List AuditLog :=
  applyLimit filters.limit
    ((auditQueryPool filters logs).mergeSort
      (fun a b => decide (b.timestamp ≤ a.timestamp)))

end AuditService

/-- The limit stage only drops elements. -/
theorem mem_of_mem_applyLimit (o : Option Nat) (l : List AuditLog)
    (e : AuditLog) (he : e ∈ AuditService.applyLimit o l) : e ∈ l := by
  cases o with
  | none => exact he
  | some n =>
    simp only [AuditService.applyLimit] at he
    by_cases hn : n = 0
    · rwa [if_pos hn] at he
    · rw [if_neg hn] at he
      exact List.take_subset _ _ he

/-- The limit stage preserves ordering. -/
theorem pairwise_applyLimit (o : Option Nat) (l : List AuditLog)
    (R : AuditLog → AuditLog → Prop) (h : List.Pairwise R l) :
    List.Pairwise R (AuditService.applyLimit o l) := by
  cases o with
  | none => exact h
  | some n =>
    simp only [AuditService.applyLimit]
    by_cases hn : n = 0
    · rwa [if_pos hn]
    · rw [if_neg hn]
      exact h.take

/-- Every entry the local audit query returns comes from the filtered
pool. -/
theorem mem_pool_of_mem_query (filters : AuditFilters)
    (logs : List AuditLog) (e : AuditLog)
    (he : e ∈ AuditService.getAuditLogsLocally filters logs) :
    e ∈ AuditService.auditQueryPool filters logs :=
  List.mem_mergeSort.mp
    (mem_of_mem_applyLimit filters.limit _ e he)

/-- Every entry of the filtered pool is a stored entry matching each truthy
filter. -/
theorem mem_pool_props (filters : AuditFilters) (logs : List AuditLog)
    (e : AuditLog) (he : e ∈ AuditService.auditQueryPool filters logs) :
    e ∈ logs ∧
    (∀ u, filters.userId = some u → u ≠ "" → e.userId = u) ∧
    (∀ r, filters.resourceId = some r → r ≠ "" → e.resourceId = some r) ∧
    (∀ a, filters.action = some a → a ≠ "" → e.action = a) := by
  unfold AuditService.auditQueryPool at he
  have step3 : e ∈ AuditService.filterByResource filters.resourceId
        (AuditService.filterByUser filters.userId logs) ∧
      (∀ a, filters.action = some a → a ≠ "" → e.action = a) := by
    rcases ha : filters.action with _ | a
    · rw [ha] at he
      exact ⟨he, fun a h => by simp at h⟩
    · rw [ha] at he
      simp only [AuditService.filterByAction] at he
      by_cases hae : a = ""
      · rw [if_pos hae] at he
        refine ⟨he, fun a' h h' => ?_⟩
        exact absurd ((Option.some_injective _ h) ▸ hae) h'
      · rw [if_neg hae] at he
        rcases List.mem_filter.mp he with ⟨he2, hp⟩
        refine ⟨he2, fun a' h _ => ?_⟩
        exact (Option.some_injective _ h) ▸ eq_of_beq hp
  have step2 : e ∈ AuditService.filterByUser filters.userId logs ∧
      (∀ r, filters.resourceId = some r → r ≠ "" →
        e.resourceId = some r) := by
    have he2 := step3.1
    rcases hr : filters.resourceId with _ | r
    · rw [hr] at he2
      exact ⟨he2, fun r h => by simp at h⟩
    · rw [hr] at he2
      simp only [AuditService.filterByResource] at he2
      by_cases hre : r = ""
      · rw [if_pos hre] at he2
        refine ⟨he2, fun r' h h' => ?_⟩
        exact absurd ((Option.some_injective _ h) ▸ hre) h'
      · rw [if_neg hre] at he2
        rcases List.mem_filter.mp he2 with ⟨he3, hp⟩
        refine ⟨he3, fun r' h _ => ?_⟩
        exact (Option.some_injective _ h) ▸ eq_of_beq hp
  have step1 : e ∈ logs ∧
      (∀ u, filters.userId = some u → u ≠ "" → e.userId = u) := by
    have he3 := step2.1
    rcases hu : filters.userId with _ | u
    · rw [hu] at he3
      exact ⟨he3, fun u h => by simp at h⟩
    · rw [hu] at he3
      simp only [AuditService.filterByUser] at he3
      by_cases hue : u = ""
      · rw [if_pos hue] at he3
        refine ⟨he3, fun u' h h' => ?_⟩
        exact absurd ((Option.some_injective _ h) ▸ hue) h'
      · rw [if_neg hue] at he3
        rcases List.mem_filter.mp he3 with ⟨he4, hp⟩
        refine ⟨he4, fun u' h _ => ?_⟩
        exact (Option.some_injective _ h) ▸ eq_of_beq hp
  exact ⟨step1.1, step1.2, step2.2, step3.2⟩

/-- The sorted pool is ordered newest-first by timestamp. -/
theorem query_sorted (filters : AuditFilters) (logs : List AuditLog) :
    List.Pairwise (fun x y => y.timestamp ≤ x.timestamp)
      (AuditService.getAuditLogsLocally filters logs) := by
  have hs : List.Pairwise (fun x y => y.timestamp ≤ x.timestamp)
      ((AuditService.auditQueryPool filters logs).mergeSort
        (fun a b => decide (b.timestamp ≤ a.timestamp))) := by
    have := @List.sorted_mergeSort AuditLog
      (fun a b : AuditLog => decide (b.timestamp ≤ a.timestamp))
      (fun a b c h1 h2 => by
        simp only [decide_eq_true_eq] at h1 h2 ⊢
        omega)
      (fun a b => by
        simp only [Bool.or_eq_true, decide_eq_true_eq]
        omega)
      (AuditService.auditQueryPool filters logs)
    exact this.imp (fun h => by simpa using h)
  exact pairwise_applyLimit filters.limit _ _ hs

/-- C9 amended: the local audit query returns only stored entries matching
every truthy filter (a provided empty-string value or a zero limit is
falsy in JS and is skipped), newest-first by timestamp, truncated to the
limit when a nonzero limit is given. -/
theorem getAuditLogsLocally_filters_sorted_limited (filters : AuditFilters)
    (logs : List AuditLog) :
    (∀ e ∈ AuditService.getAuditLogsLocally filters logs,
      e ∈ logs ∧
      (∀ u, filters.userId = some u → u ≠ "" → e.userId = u) ∧
      (∀ r, filters.resourceId = some r → r ≠ "" → e.resourceId = some r) ∧
      (∀ a, filters.action = some a → a ≠ "" → e.action = a)) ∧
    List.Pairwise (fun x y => y.timestamp ≤ x.timestamp)
      (AuditService.getAuditLogsLocally filters logs) ∧
    (∀ n, filters.limit = some n → n ≠ 0 →
      (AuditService.getAuditLogsLocally filters logs).length ≤ n) := by
  refine ⟨?_, query_sorted filters logs, ?_⟩
  · intro e he
    exact mem_pool_props filters logs e (mem_pool_of_mem_query filters logs e he)
  · intro n hn hnz
    unfold AuditService.getAuditLogsLocally
    rw [hn]
    simp only [AuditService.applyLimit, if_neg hnz, List.length_take]
    exact Nat.min_le_left _ _

/-- A concrete stored share entry for query evaluation. -/
def witnessShareLog : AuditLog :=
  { id := "w1", userId := "u1", userName := "User", userRole := Role.patient,
    action := "share", resourceType := "record", resourceId := none,
    resourceName := none, details := "d1", ipAddress := none,
    userAgent := none, timestamp := 5 }

/-- A concrete stored upload entry for query evaluation. -/
def witnessUploadLog : AuditLog :=
  { id := "w2", userId := "u1", userName := "User", userRole := Role.patient,
    action := "upload", resourceType := "record", resourceId := none,
    resourceName := none, details := "d2", ipAddress := none,
    userAgent := none, timestamp := 9 }

/-- A concrete filter set with an action filter and limit 1. -/
def witnessFilters : AuditFilters :=
  { userId := none, resourceId := none, action := some "share",
    limit := some 1 }

unseal List.merge List.mergeSort in
/-- C9 counterexample: with limit = 0 provided, the query returns all
matching entries — here 1 entry from a one-entry store — not at most 0:
the JS truthiness check skips a zero limit. -/
theorem getAuditLogsLocally_limit_zero :
    (AuditService.getAuditLogsLocally
      { userId := none, resourceId := none, action := none,
        limit := some 0 } [witnessShareLog]).length = 1 ∧
    ¬((AuditService.getAuditLogsLocally
      { userId := none, resourceId := none, action := none,
        limit := some 0 } [witnessShareLog]).length ≤ 0) := by
  decide

unseal List.merge List.mergeSort in
/-- Witness for C9 amended: with an action filter and limit 1 over a
two-entry store, the returned entry matches the filter, comes from the
store, and the result length respects the limit. -/
theorem getAuditLogsLocally_filters_sorted_limited_witness :
    (AuditService.getAuditLogsLocally witnessFilters
      [witnessShareLog, witnessUploadLog]).length ≤ 1 ∧
    witnessShareLog.action = "share" ∧
    witnessShareLog ∈ [witnessShareLog, witnessUploadLog] := by
  have hmem : witnessShareLog ∈ AuditService.getAuditLogsLocally
      witnessFilters [witnessShareLog, witnessUploadLog] := by decide
  have h := getAuditLogsLocally_filters_sorted_limited witnessFilters
    [witnessShareLog, witnessUploadLog]
  exact ⟨h.2.2 1 rfl (by decide),
    (h.1 witnessShareLog hmem).2.2.2 "share" rfl (by decide),
    (h.1 witnessShareLog hmem).1⟩

end HealthLock
